import Mathlib

/-!
Shallow embedding of the ICS-20 transfer keeper
(modules/apps/transfer/keeper relay logic) of ibc-go.

The stateful Go code is embedded as explicit state passing: every keeper
operation has a type of the shape `... → State → Except Err α × State`,
returning both the outcome and the state reached (so that mutations made
before an error remain observable).  Machine integers do not occur: all
amounts are arbitrary-precision `Int`, exactly as the Go code's
`sdkmath.Int` (the 256-bit bound of `sdkmath.Int` is not modelled; no
claim depends on it).  Collaborator behaviour (the bank ledger, the auth
module-account resolver) is modelled from the spec's collaborator
contracts in section 6.
-/

namespace IBCTransfer

/-- One directed edge a token has crossed: a `(port, channel)` pair. -/
structure Hop where
  portId : String
  channelId : String
deriving DecidableEq, Repr

/-- A denomination: base denom plus the ordered trace of hops, index 0 most
recent. -/
structure Denom where
  base : String
  trace : List Hop
deriving DecidableEq, Repr

/-- The wire form of a hop, `port/channel`. -/
def Hop.toPathStr (h : Hop) : String :=
  h.portId ++ "/" ++ h.channelId

/-- Slash-joined wire form of a trace. -/
def traceToPath : List Hop → String
  | [] => ""
  | [h] => Hop.toPathStr h
  | h :: rest => Hop.toPathStr h ++ "/" ++ traceToPath rest

/-- Modelled from the spec: the canonical wire identity of a Denom is the
trace joined by slashes followed by the base denom (`Denom.Path` in the
repository, not under src). -/
def Denom.pathStr (d : Denom) : String :=
  match d.trace with
  | [] => d.base
  | _ => traceToPath d.trace ++ "/" ++ d.base

/-- Modelled from the spec: the on-chain (effective ledger) identity of a
Denom (`Denom.IBCDenom` in the repository, not under src).  The source uses
`ibc/` followed by a content hash of the canonical path when the trace is
nonempty, and the bare base denom otherwise; the hash is modelled as the
path itself, which, like the source's hash, identifies exactly the Denoms
with equal canonical path. -/
def Denom.ibcDenom (d : Denom) : String :=
  match d.trace with
  | [] => d.base
  | _ => "ibc/" ++ Denom.pathStr d

/-- Modelled from the spec: a Denom has prefix `(port, channel)` iff its
trace's first hop equals that pair (`Denom.HasPrefix` in the repository,
not under src). -/
def Denom.HasPrefix (d : Denom) (portId channelId : String) : Bool :=
  match d.trace with
  | [] => false
  | h :: _ => h.portId = portId && h.channelId = channelId

/-- A token of a transfer packet: a Denom and an amount given as a decimal
string, as in the source's `types.Token`. -/
structure Token where
  denom : Denom
  amount : String
deriving DecidableEq, Repr

/-- A bank coin: effective ledger denomination string plus an
arbitrary-precision integer amount, as in `sdk.Coin`. -/
structure Coin where
  denom : String
  amount : Int
deriving DecidableEq, Repr

/-- Error values of the embedded code.  `wrap` models `errorsmod.Wrap`;
`panicErr` models a Go `panic` (the host aborts the transaction). -/
inductive Err where
  | sendDisabled
  | receiveDisabled
  | unauthorized (addr : String)
  | invalidAmount (s : String)
  | invalidRequest
  | invalidVersion
  | invalidType
  | insufficientFunds (addr denom : String)
  | validation (msg : String)
  | wrap (msg : String) (inner : Err)
  | panicErr (msg : String)
deriving DecidableEq, Repr

/-- Numeric value of a decimal digit character, if it is one. -/
def digitVal (c : Char) : Option Nat :=
  if 48 ≤ c.toNat ∧ c.toNat ≤ 57 then some (c.toNat - 48) else none

/-- Accumulating parse of a digit list; fails on any non-digit. -/
def parseDigits : List Char → Nat → Option Nat
  | [], acc => some acc
  | c :: rest, acc =>
    match digitVal c with
    | none => none
    | some d => parseDigits rest (10 * acc + d)

/-- Parse of a decimal integer string, as `sdkmath.NewIntFromString`:
an optional sign followed by a nonempty digit string. -/
def parseIntString (str : String) : Option Int :=
  match str.data with
  | [] => none
  | c :: rest =>
    if c = '-' then
      match rest with
      | [] => none
      | _ => (parseDigits rest 0).map fun n => -(n : Int)
    else if c = '+' then
      match rest with
      | [] => none
      | _ => (parseDigits rest 0).map fun n => (n : Int)
    else
      (parseDigits (c :: rest) 0).map fun n => (n : Int)

/-- Modelled from the spec: `Token.ToCoin` (in the repository, not under
src) parses the token's decimal amount string and pairs it with the
effective ledger denomination of the token's Denom. -/
def Token.toCoin (t : Token) : Except Err Coin :=
  match parseIntString t.amount with
  | none => Except.error (Err.invalidAmount t.amount)
  | some a => Except.ok { denom := Denom.ibcDenom t.denom, amount := a }

/-- An account address.  Addresses are modelled as strings. -/
abbrev Addr := String

/-- Modelled from the spec: the module account address returned by the
auth keeper's module-address resolver for the transfer module name. -/
def moduleAddr : Addr := "module:transfer"

/-- Modelled from the spec: `types.GetEscrowAddress` (in the repository,
not under src) derives a deterministic escrow address from a
`(port, channel)` pair. -/
def getEscrowAddress (portId channelId : String) : Addr :=
  "escrow:" ++ portId ++ "/" ++ channelId

/-- Module parameters, as `types.Params`. -/
structure Params where
  sendEnabled : Bool
  receiveEnabled : Bool
deriving DecidableEq, Repr

/-- An acknowledgement, as `channeltypes.Acknowledgement`: the `Response`
oneof holds a success result, an error string, or (`invalidResponse`) a
value of neither expected type. -/
inductive Acknowledgement where
  | result (data : List Nat)
  | ackError (msg : String)
  | invalidResponse
deriving DecidableEq, Repr

/-- A channel packet, reduced to the fields the transfer keeper reads. -/
structure Packet where
  sequence : Nat
  sourcePort : String
  sourceChannel : String
  destinationPort : String
  destinationChannel : String
deriving DecidableEq, Repr

/-- The mutable chain state the embedded operations act on: module
parameters, bank balances, the per-denomination escrow totals, the denom
registry, the set of ledger denominations with registered metadata, and
the log of acknowledgements written through the relay layer's
async-acknowledgement interface. -/
structure State where
  params : Params
  balances : Addr → String → Int
  escrowTotal : String → Int
  denoms : List Denom
  denomMetadata : List String
  ackWrites : List (Packet × Acknowledgement)

/-- Static collaborator configuration held by the keeper: the auth
blocked-address predicate and the bank's per-denomination send-enabled
flag. -/
structure Keeper where
  blockedAddrs : Addr → Bool
  coinSendEnabled : String → Bool

/-- Pointwise update of a balance table at one `(address, denom)` key. -/
def setBal (b : Addr → String → Int) (a : Addr) (d : String) (v : Int) :
    Addr → String → Int :=
  fun x y => if x = a ∧ y = d then v else b x y

/-- Pointwise update of the escrow-total table at one denomination. -/
def setTotal (f : String → Int) (d : String) (v : Int) : String → Int :=
  fun y => if y = d then v else f y

/-- Modelled from the spec: the bank collaborator's funds move
(`BankKeeper.SendCoins` wrapping `sdk.NewCoins`).  A negative amount makes
`sdk.NewCoins` panic; a zero amount is sanitized away and moves nothing;
otherwise the move fails exactly on insufficient balance of the source
account, and debits the source before crediting the destination. -/
def sendCoins (fromA toA : Addr) (c : Coin) (s : State) :
    Except Err Unit × State :=
  if c.amount < 0 then (Except.error (Err.panicErr "invalid coins"), s)
  else if c.amount = 0 then (Except.ok (), s)
  else if s.balances fromA c.denom < c.amount then
    (Except.error (Err.insufficientFunds fromA c.denom), s)
  else
    let b1 := setBal s.balances fromA c.denom (s.balances fromA c.denom - c.amount)
    let b2 := setBal b1 toA c.denom (b1 toA c.denom + c.amount)
    (Except.ok (), { s with balances := b2 })

/-- Modelled from the spec: the bank collaborator's mint into the module
account (`BankKeeper.MintCoins` with the transfer module name). -/
def mintCoins (c : Coin) (s : State) : Except Err Unit × State :=
  if c.amount < 0 then (Except.error (Err.panicErr "invalid coins"), s)
  else
    let b := setBal s.balances moduleAddr c.denom
      (s.balances moduleAddr c.denom + c.amount)
    (Except.ok (), { s with balances := b })

/-- Modelled from the spec: the bank collaborator's burn from the module
account (`BankKeeper.BurnCoins` with the transfer module name); it fails
exactly on insufficient module-account balance. -/
def burnCoins (c : Coin) (s : State) : Except Err Unit × State :=
  if c.amount < 0 then (Except.error (Err.panicErr "invalid coins"), s)
  else if c.amount = 0 then (Except.ok (), s)
  else if s.balances moduleAddr c.denom < c.amount then
    (Except.error (Err.insufficientFunds moduleAddr c.denom), s)
  else
    let b := setBal s.balances moduleAddr c.denom
      (s.balances moduleAddr c.denom - c.amount)
    (Except.ok (), { s with balances := b })

/-- EscrowCoin sends the given coin from the sender to the escrow address
and, on success, adds the coin's amount to the total escrow for its
denomination (`Keeper.EscrowCoin`). -/
def escrowCoin (sender escrowAddress : Addr) (coin : Coin) (s : State) :
    Except Err Unit × State :=
  match sendCoins sender escrowAddress coin s with
  | (Except.error e, s1) =>
    -- failure is expected for insufficient balances
    (Except.error e, s1)
  | (Except.ok _, s1) =>
    -- track the total amount in escrow keyed by denomination
    let currentTotalEscrow := s1.escrowTotal coin.denom
    let newTotalEscrow := currentTotalEscrow + coin.amount
    (Except.ok (), { s1 with escrowTotal := setTotal s1.escrowTotal coin.denom newTotalEscrow })

/-- Message with which UnescrowCoin wraps a failed funds move. -/
def unescrowFailMsg : String :=
  "unable to unescrow tokens, this may be caused by a malicious counterparty module or a bug: please open an issue on counterparty module"

/-- UnescrowCoin sends the given coin from the escrow address to the
receiver and, on success, subtracts the coin's amount from the total
escrow for its denomination (`Keeper.UnescrowCoin`).  A failed funds move
is wrapped in a distinct message.  The subtraction uses `sdk.Coin.Sub`,
which panics when the result would be negative; that panic is the
`panicErr` branch. -/
def unescrowCoin (escrowAddress receiver : Addr) (coin : Coin) (s : State) :
    Except Err Unit × State :=
  match sendCoins escrowAddress receiver coin s with
  | (Except.error e, s1) =>
    (Except.error (Err.wrap unescrowFailMsg e), s1)
  | (Except.ok _, s1) =>
    let currentTotalEscrow := s1.escrowTotal coin.denom
    if currentTotalEscrow - coin.amount < 0 then
      (Except.error (Err.panicErr "negative coin amount"), s1)
    else
      (Except.ok (), { s1 with escrowTotal := setTotal s1.escrowTotal coin.denom (currentTotalEscrow - coin.amount) })

/-- Forwarding payload of a V2 packet: a memo for the final destination
plus the ordered remaining hops (`types.ForwardingPacketData`). -/
structure ForwardingPacketData where
  destinationMemo : String
  hops : List Hop
deriving DecidableEq, Repr

/-- The V1 wire payload (`types.FungibleTokenPacketData`): a single denom
path, a decimal amount string, sender, receiver and memo. -/
structure FungibleTokenPacketData where
  denom : String
  amount : String
  sender : String
  receiver : String
  memo : String
deriving DecidableEq, Repr

/-- The V2 wire payload (`types.FungibleTokenPacketDataV2`): many tokens,
sender, receiver, memo and an optional forwarding payload. -/
structure FungibleTokenPacketDataV2 where
  tokens : List Token
  sender : String
  receiver : String
  memo : String
  forwarding : ForwardingPacketData
deriving DecidableEq, Repr

/-- Structural validity of a hop: nonempty port and channel identifiers. -/
def Hop.validate (h : Hop) : Bool :=
  decide (h.portId ≠ "") && decide (h.channelId ≠ "")

/-- Modelled from the spec: structural validity of a token (`Token.Validate`
in the repository, not under src): its amount parses to a positive integer
(zero-amount tokens are rejected), its base denom is nonempty and every
hop of its trace is well formed. -/
def Token.validate (t : Token) : Except Err Unit :=
  match parseIntString t.amount with
  | none => Except.error (Err.invalidAmount t.amount)
  | some a =>
    if a ≤ 0 then Except.error (Err.invalidAmount t.amount)
    else if t.denom.base = "" then Except.error (Err.validation "base denomination cannot be blank")
    else if (t.denom.trace.all Hop.validate) = false then
      Except.error (Err.validation "invalid trace hop")
    else Except.ok ()

/-- Modelled from the spec: structural validation of the V1 payload
(`FungibleTokenPacketData.ValidateBasic` in the repository, not under
src): the amount must parse to a positive integer, sender, receiver and
denom must be nonempty. -/
def FungibleTokenPacketData.validateBasic (d : FungibleTokenPacketData) :
    Except Err Unit :=
  match parseIntString d.amount with
  | none => Except.error (Err.invalidAmount d.amount)
  | some a =>
    if a ≤ 0 then Except.error (Err.invalidAmount d.amount)
    else if d.sender = "" then Except.error (Err.validation "sender address cannot be blank")
    else if d.receiver = "" then Except.error (Err.validation "receiver address cannot be blank")
    else if d.denom = "" then Except.error (Err.validation "denomination cannot be blank")
    else Except.ok ()

/-- List of validation results folded to the first error. -/
def validateTokens : List Token → Except Err Unit
  | [] => Except.ok ()
  | t :: rest =>
    match Token.validate t with
    | Except.error e => Except.error e
    | Except.ok _ => validateTokens rest

/-- Modelled from the spec: structural validation of the V2 payload
(`FungibleTokenPacketDataV2.ValidateBasic` in the repository, not under
src): at least one token, every token valid, nonempty sender and
receiver, and every forwarding hop well formed. -/
def FungibleTokenPacketDataV2.validateBasic (d : FungibleTokenPacketDataV2) :
    Except Err Unit :=
  if d.tokens = [] then Except.error (Err.validation "tokens cannot be empty")
  else match validateTokens d.tokens with
  | Except.error e => Except.error e
  | Except.ok _ =>
    if d.sender = "" then Except.error (Err.validation "sender address cannot be blank")
    else if d.receiver = "" then Except.error (Err.validation "receiver address cannot be blank")
    else if (d.forwarding.hops.all Hop.validate) = false then
      Except.error (Err.validation "invalid forwarding hop")
    else Except.ok ()

/-- The per-token body of the SendTransfer loop: convert the token to a
coin, gate on the bank's per-coin send-enabled flag, then either (denom
has prefix of the outgoing port and channel) move the coin from the
sender to the module account and burn it — a burn failure after the
successful deposit is a panic — or (no prefix) escrow the coin at the
escrow address of the outgoing port and channel. -/
def sendOneToken (k : Keeper) (sourcePort sourceChannel : String)
    (sender : Addr) (token : Token) (s : State) : Except Err Unit × State :=
  match Token.toCoin token with
  | Except.error e => (Except.error e, s)
  | Except.ok coin =>
    if (k.coinSendEnabled coin.denom) = false then
      (Except.error (Err.wrap "send is disabled for this coin" Err.sendDisabled), s)
    else if Denom.HasPrefix token.denom sourcePort sourceChannel then
      -- transfer the coins to the module account and burn them
      match sendCoins sender moduleAddr coin s with
      | (Except.error e, s1) => (Except.error e, s1)
      | (Except.ok _, s1) =>
        match burnCoins coin s1 with
        | (Except.error _, s2) =>
          (Except.error (Err.panicErr "cannot burn coins after a successful send to a module account"), s2)
        | (Except.ok _, s2) => (Except.ok (), s2)
    else
      -- obtain the escrow address for the source channel end
      let escrowAddress := getEscrowAddress sourcePort sourceChannel
      escrowCoin sender escrowAddress coin s

/-- The SendTransfer loop over the tokens of the message.  Go's
`for _, token := range tokens` iterates over the slice captured when the
loop starts, so the in-loop `tokens = append(tokens, token)` extends only
the loop-local variable (threaded here as `acc`), never the iteration:
the first list argument is the snapshot still to be processed, `acc` is
the Go variable being appended to and is dead when the loop ends. -/
def sendTransferLoop (k : Keeper) (sourcePort sourceChannel : String)
    (sender : Addr) : List Token → List Token → State → Except Err Unit × State
  | [], _acc, s => (Except.ok (), s)
  | token :: rest, acc, s =>
    match sendOneToken k sourcePort sourceChannel sender token s with
    | (Except.error e, s1) => (Except.error e, s1)
    | (Except.ok _, s1) =>
      sendTransferLoop k sourcePort sourceChannel sender rest (acc ++ [token]) s1

/-- SendTransfer (`Keeper.SendTransfer`): gate on the module send-enabled
parameter and the blocked-address list, then process each token. -/
def sendTransfer (k : Keeper) (sourcePort sourceChannel : String)
    (tokens : List Token) (sender : Addr) (s : State) :
    Except Err Unit × State :=
  if (s.params.sendEnabled) = false then (Except.error Err.sendDisabled, s)
  else if k.blockedAddrs sender then
    (Except.error (Err.unauthorized sender), s)
  else
    sendTransferLoop k sourcePort sourceChannel sender tokens tokens s

/-- Modelled from the spec: the receiver resolution of the receive path
(`Keeper.getReceiverFromPacketData` in the repository, not under src):
decode the payload's receiver address, failing on an undecodable (here:
empty) address. -/
def getReceiverFromPacketData (data : FungibleTokenPacketDataV2) :
    Except Err Addr :=
  if data.receiver = "" then Except.error (Err.validation "invalid receiver address")
  else Except.ok data.receiver

/-- The per-token body of the OnRecvPacket loop: parse the transfer
amount; if the token's denom carries the prefix of the packet's source
port and channel, drop the leading hop from the trace and unescrow the
resulting coin from the escrow address of the destination port and
channel to the receiver; otherwise prepend the destination port and
channel as a new hop, register the resulting denom and its ledger
metadata when unseen, mint the voucher to the module account and send it
to the receiver.  Returns the coin credited to the receiver.  The
`sdk.NewCoin` constructor panics on a negative amount. -/
def recvOneToken (receiver : Addr) (sourcePort sourceChannel destPort destChannel : String)
    (token : Token) (s : State) : Except Err Coin × State :=
  match parseIntString token.amount with
  | none =>
    (Except.error (Err.wrap ("unable to parse transfer amount: " ++ token.amount)
      (Err.invalidAmount token.amount)), s)
  | some transferAmount =>
    if Denom.HasPrefix token.denom sourcePort sourceChannel then
      -- sender chain is not the source, unescrow tokens:
      -- remove prefix added by sender chain
      let shorter : Denom := { base := token.denom.base, trace := token.denom.trace.tail }
      if transferAmount < 0 then (Except.error (Err.panicErr "negative coin amount"), s)
      else
        let coin : Coin := { denom := Denom.ibcDenom shorter, amount := transferAmount }
        let escrowAddress := getEscrowAddress destPort destChannel
        match unescrowCoin escrowAddress receiver coin s with
        | (Except.error e, s1) => (Except.error e, s1)
        | (Except.ok _, s1) => (Except.ok coin, s1)
    else
      -- sender chain is the source, mint vouchers:
      -- add the destination port and channel to the trace
      let longer : Denom :=
        { base := token.denom.base,
          trace := { portId := destPort, channelId := destChannel } :: token.denom.trace }
      let s1 := if longer ∈ s.denoms then s else { s with denoms := longer :: s.denoms }
      let voucherDenom := Denom.ibcDenom longer
      let s2 :=
        if voucherDenom ∈ s1.denomMetadata then s1
        else { s1 with denomMetadata := voucherDenom :: s1.denomMetadata }
      if transferAmount < 0 then (Except.error (Err.panicErr "negative coin amount"), s2)
      else
        let voucher : Coin := { denom := voucherDenom, amount := transferAmount }
        match mintCoins voucher s2 with
        | (Except.error e, s3) =>
          (Except.error (Err.wrap "failed to mint IBC tokens" e), s3)
        | (Except.ok _, s3) =>
          match sendCoins moduleAddr receiver voucher s3 with
          | (Except.error e, s4) =>
            (Except.error (Err.wrap ("failed to send coins to receiver " ++ receiver) e), s4)
          | (Except.ok _, s4) => (Except.ok voucher, s4)

/-- The OnRecvPacket loop, accumulating the coins credited to the
receiver in order. -/
def recvLoop (receiver : Addr) (sourcePort sourceChannel destPort destChannel : String) :
    List Token → List Coin → State → Except Err (List Coin) × State
  | [], receivedCoins, s => (Except.ok receivedCoins, s)
  | token :: rest, receivedCoins, s =>
    match recvOneToken receiver sourcePort sourceChannel destPort destChannel token s with
    | (Except.error e, s1) => (Except.error e, s1)
    | (Except.ok coin, s1) =>
      recvLoop receiver sourcePort sourceChannel destPort destChannel rest
        (receivedCoins ++ [coin]) s1

/-- OnRecvPacket (`Keeper.OnRecvPacket`): validate the payload, gate on
the receive-enabled parameter, resolve the receiver and gate on the
blocked-address list, then process each token, returning the coins
credited to the receiver. -/
def onRecvPacket (k : Keeper) (data : FungibleTokenPacketDataV2)
    (sourcePort sourceChannel destPort destChannel : String) (s : State) :
    Except Err (List Coin) × State :=
  match FungibleTokenPacketDataV2.validateBasic data with
  | Except.error e =>
    (Except.error (Err.wrap "error validating ICS-20 transfer packet data" e), s)
  | Except.ok _ =>
    if (s.params.receiveEnabled) = false then (Except.error Err.receiveDisabled, s)
    else
      match getReceiverFromPacketData data with
      | Except.error e => (Except.error e, s)
      | Except.ok receiver =>
        if k.blockedAddrs receiver then
          (Except.error (Err.unauthorized receiver), s)
        else
          recvLoop receiver sourcePort sourceChannel destPort destChannel data.tokens [] s

/-- Modelled from the spec: bech32 decoding of an account address
(`sdk.AccAddressFromBech32`), failing on an undecodable (here: empty)
address. -/
def accAddressFromBech32 (a : String) : Except Err Addr :=
  if a = "" then Except.error (Err.validation "empty address string is not allowed")
  else Except.ok a

/-- The per-token body of the refund loop: convert the token to a coin;
if the token's denom carries the prefix of the packet's source port and
channel the coins were burnt on send, so mint them to the module account
and send them to the sender (a send failure after the successful mint is
a panic); otherwise unescrow the coin from the escrow address of the
source port and channel back to the sender. -/
def refundOneToken (sourcePort sourceChannel : String) (sender : Addr)
    (token : Token) (s : State) : Except Err Unit × State :=
  match Token.toCoin token with
  | Except.error e => (Except.error e, s)
  | Except.ok coin =>
    if Denom.HasPrefix token.denom sourcePort sourceChannel then
      -- mint vouchers back to sender
      match mintCoins coin s with
      | (Except.error e, s1) => (Except.error e, s1)
      | (Except.ok _, s1) =>
        match sendCoins moduleAddr sender coin s1 with
        | (Except.error _, s2) =>
          (Except.error (Err.panicErr "unable to send coins from module to account despite previously minting coins to module account"), s2)
        | (Except.ok _, s2) => (Except.ok (), s2)
    else
      unescrowCoin (getEscrowAddress sourcePort sourceChannel) sender coin s

/-- The refund loop over the tokens of the packet data. -/
def refundLoop (sourcePort sourceChannel : String) (sender : Addr) :
    List Token → State → Except Err Unit × State
  | [], s => (Except.ok (), s)
  | token :: rest, s =>
    match refundOneToken sourcePort sourceChannel sender token s with
    | (Except.error e, s1) => (Except.error e, s1)
    | (Except.ok _, s1) => refundLoop sourcePort sourceChannel sender rest s1

/-- refundPacketTokens (`Keeper.refundPacketTokens`): resolve the sender
from the payload, gate on the blocked-address list, then refund each
token by mirroring the send path's direction test. -/
def refundPacketTokens (k : Keeper) (sourcePort sourceChannel : String)
    (data : FungibleTokenPacketDataV2) (s : State) : Except Err Unit × State :=
  match accAddressFromBech32 data.sender with
  | Except.error e => (Except.error e, s)
  | Except.ok sender =>
    if k.blockedAddrs sender then
      (Except.error (Err.unauthorized sender), s)
    else
      refundLoop sourcePort sourceChannel sender data.tokens s

/-- OnAcknowledgementPacket (`Keeper.OnAcknowledgementPacket`): a success
acknowledgement needs no action; an error acknowledgement refunds the
sender; anything else is an invalid-type error. -/
def onAcknowledgementPacket (k : Keeper) (sourcePort sourceChannel : String)
    (data : FungibleTokenPacketDataV2) (ack : Acknowledgement) (s : State) :
    Except Err Unit × State :=
  match ack with
  | Acknowledgement.result _ => (Except.ok (), s)
  | Acknowledgement.ackError _ => refundPacketTokens k sourcePort sourceChannel data s
  | Acknowledgement.invalidResponse =>
    (Except.error (Err.wrap "expected one of result or error acknowledgement" Err.invalidType), s)

/-- OnTimeoutPacket (`Keeper.OnTimeoutPacket`): refund the tokens to the
sender. -/
def onTimeoutPacket (k : Keeper) (sourcePort sourceChannel : String)
    (data : FungibleTokenPacketDataV2) (s : State) : Except Err Unit × State :=
  refundPacketTokens k sourcePort sourceChannel data s

/-- Modelled from the spec: the synthetic error acknowledgement for a
failed forwarded packet (`internaltypes.NewForwardErrorAcknowledgement`
in the repository, not under src), embedding the original packet's
identity and the upstream failure. -/
def newForwardErrorAcknowledgement (p : Packet) (ack : Acknowledgement) :
    Acknowledgement :=
  match ack with
  | Acknowledgement.ackError msg =>
    Acknowledgement.ackError
      ("forwarding packet failed, sequence " ++ toString p.sequence ++ ": " ++ msg)
  | _ =>
    Acknowledgement.ackError
      ("forwarding packet failed, sequence " ++ toString p.sequence)

/-- Modelled from the spec: the synthetic timeout acknowledgement for a
timed-out forwarded packet (`internaltypes.NewForwardTimeoutAcknowledgement`
in the repository, not under src), embedding the original packet's
identity. -/
def newForwardTimeoutAcknowledgement (p : Packet) : Acknowledgement :=
  Acknowledgement.ackError
    ("forwarding packet timed out, sequence " ++ toString p.sequence)

/-- Modelled from the spec: the hand-off of a forwarded packet's result to
the relay layer's async-acknowledgement-write interface
(`Keeper.acknowledgeForwardedPacket` in the repository, not under src):
write the acknowledgement for the original inbound packet. -/
def acknowledgeForwardedPacket (forwardedPacket _packet : Packet)
    (ack : Acknowledgement) (s : State) : Except Err Unit × State :=
  (Except.ok (), { s with ackWrites := s.ackWrites ++ [(forwardedPacket, ack)] })

/-- Modelled from the spec: the per-token body of the receive-path revert
(`Keeper.revertForwardedPacket` in the repository, not under src): for
each token of the failed packet's payload, re-derive the branch the
receive step took via the prefix test against the forwarded packet's
destination port and channel — if a hop was added on receipt the voucher
was minted, so burn it back from the module account; otherwise the coin
was unescrowed on receipt, so escrow it back from the module account to
the escrow address of that destination port and channel. -/
def revertOneToken (forwardedPacket : Packet) (token : Token) (s : State) :
    Except Err Unit × State :=
  match Token.toCoin token with
  | Except.error e => (Except.error e, s)
  | Except.ok coin =>
    if Denom.HasPrefix token.denom forwardedPacket.destinationPort forwardedPacket.destinationChannel then
      burnCoins coin s
    else
      escrowCoin moduleAddr
        (getEscrowAddress forwardedPacket.destinationPort forwardedPacket.destinationChannel)
        coin s

/-- Modelled from the spec: the loop of `Keeper.revertForwardedPacket`
(in the repository, not under src) over the failed packet's tokens. -/
def revertLoop (forwardedPacket : Packet) :
    List Token → State → Except Err Unit × State
  | [], s => (Except.ok (), s)
  | token :: rest, s =>
    match revertOneToken forwardedPacket token s with
    | (Except.error e, s1) => (Except.error e, s1)
    | (Except.ok _, s1) => revertLoop forwardedPacket rest s1

/-- Modelled from the spec: `Keeper.revertForwardedPacket` (in the
repository, not under src) reverses the local receive-path effects for
the forwarded packet's payload, token by token. -/
def revertForwardedPacket (forwardedPacket : Packet)
    (data : FungibleTokenPacketDataV2) (s : State) : Except Err Unit × State :=
  revertLoop forwardedPacket data.tokens s

/-- HandleForwardedPacketAcknowledgement
(`Keeper.HandleForwardedPacketAcknowledgement`): on a success
acknowledgement write a trivial success acknowledgement for the original
inbound packet; on an error acknowledgement first revert the local
receive-path effects and only then construct and hand off the synthetic
error acknowledgement — a failed revert propagates its error without
writing any acknowledgement. -/
def handleForwardedPacketAcknowledgement (_k : Keeper)
    (packet forwardedPacket : Packet) (data : FungibleTokenPacketDataV2)
    (ack : Acknowledgement) (s : State) : Except Err Unit × State :=
  match ack with
  | Acknowledgement.result _ =>
    acknowledgeForwardedPacket forwardedPacket packet (Acknowledgement.result [1]) s
  | Acknowledgement.ackError _ =>
    match revertForwardedPacket forwardedPacket data s with
    | (Except.error e, s1) => (Except.error e, s1)
    | (Except.ok _, s1) =>
      acknowledgeForwardedPacket forwardedPacket packet
        (newForwardErrorAcknowledgement packet ack) s1
  | Acknowledgement.invalidResponse =>
    (Except.error (Err.wrap "expected one of result or error acknowledgement" Err.invalidType), s)

/-- HandleForwardedPacketTimeout (`Keeper.HandleForwardedPacketTimeout`):
revert the local receive-path effects, then construct and hand off the
synthetic timeout acknowledgement; a failed revert propagates its error
without writing any acknowledgement. -/
def handleForwardedPacketTimeout (_k : Keeper)
    (packet forwardedPacket : Packet) (data : FungibleTokenPacketDataV2)
    (s : State) : Except Err Unit × State :=
  match revertForwardedPacket forwardedPacket data s with
  | (Except.error e, s1) => (Except.error e, s1)
  | (Except.ok _, s1) =>
    acknowledgeForwardedPacket forwardedPacket packet
      (newForwardTimeoutAcknowledgement packet) s1

/-- Application version strings, as `types.V1` and `types.V2`. -/
def V1 : String := "ics20-1"

/-- Application version string of the V2 protocol. -/
def V2 : String := "ics20-2"

/-- The packet data bytes produced by `createPacketDataBytesFromVersion`.
The wire encoding is a pure serialization boundary; it is modelled as the
identity injection of the validated packet data. -/
inductive PacketDataBytes where
  | v1 (d : FungibleTokenPacketData)
  | v2 (d : FungibleTokenPacketDataV2)
deriving DecidableEq, Repr

/-- createPacketDataBytesFromVersion: on V1, reject token lists whose
length is not exactly one, then build and validate the single-token
payload from the token's denom path; on V2, when forwarding hops are
present move the memo into the forwarding payload and clear the top-level
memo, then build and validate the multi-token payload; any other version
string is an invalid-version error. -/
def createPacketDataBytesFromVersion (appVersion sender receiver memo : String)
    (tokens : List Token) (hops : List Hop) : Except Err PacketDataBytes :=
  if appVersion = V1 then
    -- Sanity check, tokens must always be of length 1 if using app version V1.
    match tokens with
    | [token] =>
      let packetData : FungibleTokenPacketData :=
        { denom := Denom.pathStr token.denom, amount := token.amount,
          sender := sender, receiver := receiver, memo := memo }
      match FungibleTokenPacketData.validateBasic packetData with
      | Except.error e =>
        Except.error (Err.wrap "failed to validate ics20-1 packet data" e)
      | Except.ok _ => Except.ok (PacketDataBytes.v1 packetData)
    | _ => Except.error (Err.wrap "cannot transfer multiple coins with ics20-1" Err.invalidRequest)
  else if appVersion = V2 then
    -- If forwarding is needed, move memo to forwarding packet data and
    -- set the packet memo to the empty string.
    let forwardingPacketData : ForwardingPacketData :=
      if hops ≠ [] then { destinationMemo := memo, hops := hops }
      else { destinationMemo := "", hops := [] }
    let memo1 := if hops ≠ [] then "" else memo
    let packetData : FungibleTokenPacketDataV2 :=
      { tokens := tokens, sender := sender, receiver := receiver,
        memo := memo1, forwarding := forwardingPacketData }
    match FungibleTokenPacketDataV2.validateBasic packetData with
    | Except.error e =>
      Except.error (Err.wrap "failed to validate ics20-2 packet data" e)
    | Except.ok _ => Except.ok (PacketDataBytes.v2 packetData)
  else
    Except.error (Err.wrap "app version must be one of the supported versions" Err.invalidVersion)

/-! Helper lemmas about the bank operations. -/

/-- sendCoins never touches the escrow-total table. -/
theorem sendCoins_escrowTotal (fromA toA : Addr) (c : Coin) (s : State) :
    ((sendCoins fromA toA c s).2).escrowTotal = s.escrowTotal := by
  unfold sendCoins
  repeat' split
  all_goals rfl

/-- sendCoins never touches the denom registry. -/
theorem sendCoins_denoms (fromA toA : Addr) (c : Coin) (s : State) :
    ((sendCoins fromA toA c s).2).denoms = s.denoms := by
  unfold sendCoins
  repeat' split
  all_goals rfl

/-- sendCoins never touches the acknowledgement-write log. -/
theorem sendCoins_ackWrites (fromA toA : Addr) (c : Coin) (s : State) :
    ((sendCoins fromA toA c s).2).ackWrites = s.ackWrites := by
  unfold sendCoins
  repeat' split
  all_goals rfl

/-- A failed sendCoins leaves the state untouched. -/
theorem sendCoins_error_state (fromA toA : Addr) (c : Coin) (s : State)
    (e : Err) (s1 : State) (h : sendCoins fromA toA c s = (Except.error e, s1)) :
    s1 = s := by
  unfold sendCoins at h
  repeat' split at h
  all_goals simp_all

/-- A successful sendCoins moves a non-negative amount. -/
theorem sendCoins_ok_nonneg (fromA toA : Addr) (c : Coin) (s : State)
    (s1 : State) (h : sendCoins fromA toA c s = (Except.ok (), s1)) :
    0 ≤ c.amount := by
  unfold sendCoins at h
  repeat' split at h
  all_goals simp_all

/-- mintCoins never touches the escrow-total table. -/
theorem mintCoins_escrowTotal (c : Coin) (s : State) :
    ((mintCoins c s).2).escrowTotal = s.escrowTotal := by
  unfold mintCoins
  split
  all_goals rfl

/-- burnCoins never touches the escrow-total table. -/
theorem burnCoins_escrowTotal (c : Coin) (s : State) :
    ((burnCoins c s).2).escrowTotal = s.escrowTotal := by
  unfold burnCoins
  repeat' split
  all_goals rfl

/-- A successful escrowCoin adds the coin's (non-negative) amount to the
escrow total of the coin's denomination and leaves other denominations'
totals unchanged. -/
theorem escrowCoin_ok_total (sender esc : Addr) (c : Coin) (s s' : State)
    (h : escrowCoin sender esc c s = (Except.ok (), s')) (d : String) :
    s'.escrowTotal d = s.escrowTotal d + (if d = c.denom then c.amount else 0) ∧
    0 ≤ c.amount := by
  unfold escrowCoin at h
  rcases hsc : sendCoins sender esc c s with ⟨r, s1⟩
  rw [hsc] at h
  cases r with
  | error e => simp at h
  | ok u =>
    cases u
    simp only [Prod.mk.injEq] at h
    have hst : s1.escrowTotal = s.escrowTotal := by
      have := sendCoins_escrowTotal sender esc c s
      rw [hsc] at this
      exact this
    have hnn : 0 ≤ c.amount :=
      sendCoins_ok_nonneg sender esc c s s1 hsc
    refine ⟨?_, hnn⟩
    rw [← h.2]
    simp only [setTotal, hst]
    split <;> simp_all

/-- A successful unescrowCoin subtracts the coin's amount from the escrow
total of the coin's denomination, leaves other denominations' totals
unchanged, and (because the subtraction panics on a negative result)
leaves that total non-negative. -/
theorem unescrowCoin_ok_total (esc recv : Addr) (c : Coin) (s s' : State)
    (h : unescrowCoin esc recv c s = (Except.ok (), s')) (d : String) :
    s'.escrowTotal d = s.escrowTotal d - (if d = c.denom then c.amount else 0) ∧
    (d = c.denom → 0 ≤ s'.escrowTotal d) := by
  unfold unescrowCoin at h
  rcases hsc : sendCoins esc recv c s with ⟨r, s1⟩
  rw [hsc] at h
  cases r with
  | error e => simp at h
  | ok u =>
    cases u
    dsimp only at h
    have hst : s1.escrowTotal = s.escrowTotal := by
      have := sendCoins_escrowTotal esc recv c s
      rw [hsc] at this
      exact this
    by_cases hneg : s1.escrowTotal c.denom - c.amount < 0
    · rw [if_pos hneg] at h
      simp at h
    · rw [if_neg hneg] at h
      simp only [Prod.mk.injEq] at h
      rw [hst] at hneg
      constructor
      · rw [← h.2]
        simp only [setTotal, hst]
        split <;> simp_all
      · intro hd
        rw [← h.2]
        simp only [setTotal, hst, hd, if_pos]
        omega

/-! Escrow-operation sequences (claim C1). -/

/-- One escrow-ledger call: a paired EscrowCoin or UnescrowCoin
operation. -/
inductive EscrowOp where
  | escrowOp (sender escrowAddress : Addr) (coin : Coin)
  | unescrowOp (escrowAddress receiver : Addr) (coin : Coin)
deriving Repr

/-- Run a sequence of EscrowCoin/UnescrowCoin calls, stopping at the
first failure. -/
def runEscrowOps : List EscrowOp → State → Except Err Unit × State
  | [], s => (Except.ok (), s)
  | EscrowOp.escrowOp a b c :: rest, s =>
    match escrowCoin a b c s with
    | (Except.error e, s1) => (Except.error e, s1)
    | (Except.ok _, s1) => runEscrowOps rest s1
  | EscrowOp.unescrowOp a b c :: rest, s =>
    match unescrowCoin a b c s with
    | (Except.error e, s1) => (Except.error e, s1)
    | (Except.ok _, s1) => runEscrowOps rest s1

/-- Sum of the amounts escrowed in denomination `d` by a sequence. -/
def escrowedSum (d : String) : List EscrowOp → Int
  | [] => 0
  | EscrowOp.escrowOp _ _ c :: rest =>
    (if d = c.denom then c.amount else 0) + escrowedSum d rest
  | EscrowOp.unescrowOp _ _ _ :: rest => escrowedSum d rest

/-- Sum of the amounts unescrowed from denomination `d` by a sequence. -/
def unescrowedSum (d : String) : List EscrowOp → Int
  | [] => 0
  | EscrowOp.escrowOp _ _ _ :: rest => unescrowedSum d rest
  | EscrowOp.unescrowOp _ _ c :: rest =>
    (if d = c.denom then c.amount else 0) + unescrowedSum d rest

/-- Induction core for claim C1: across any successful sequence of
escrow-ledger calls, each denomination's escrow total changes by exactly
the escrowed-minus-unescrowed amount and stays non-negative. -/
theorem runEscrowOps_total (ops : List EscrowOp) :
    ∀ s s' : State, ∀ d : String,
      runEscrowOps ops s = (Except.ok (), s') →
      s'.escrowTotal d = s.escrowTotal d + escrowedSum d ops - unescrowedSum d ops ∧
      (0 ≤ s.escrowTotal d → 0 ≤ s'.escrowTotal d) := by
  induction ops with
  | nil =>
    intro s s' d h
    simp only [runEscrowOps, Prod.mk.injEq] at h
    rw [← h.2]
    simp [escrowedSum, unescrowedSum]
  | cons op rest ih =>
    intro s s' d h
    cases op with
    | escrowOp a b c =>
      simp only [runEscrowOps] at h
      rcases hstep : escrowCoin a b c s with ⟨r, s1⟩
      rw [hstep] at h
      cases r with
      | error e => simp at h
      | ok u =>
        cases u
        have hone := escrowCoin_ok_total a b c s s1 hstep d
        have hrest := ih s1 s' d h
        constructor
        · rw [hrest.1, hone.1]
          simp only [escrowedSum, unescrowedSum]
          ring
        · intro hs
          apply hrest.2
          rw [hone.1]
          have := hone.2
          split <;> omega
    | unescrowOp a b c =>
      simp only [runEscrowOps] at h
      rcases hstep : unescrowCoin a b c s with ⟨r, s1⟩
      rw [hstep] at h
      cases r with
      | error e => simp at h
      | ok u =>
        cases u
        have hone := unescrowCoin_ok_total a b c s s1 hstep d
        have hrest := ih s1 s' d h
        constructor
        · rw [hrest.1, hone.1]
          simp only [escrowedSum, unescrowedSum]
          ring
        · intro hs
          apply hrest.2
          by_cases hd : d = c.denom
          · exact hone.2 hd
          · rw [hone.1]
            simp only [hd, if_neg, not_false_iff]
            omega

/-- C1: for every denomination d, across any sequence of successful
EscrowCoin and UnescrowCoin calls starting from a zero escrow total, the
resulting EscrowTotal(d) equals the sum of amounts escrowed in d minus
the sum of amounts unescrowed in d, and this value is never negative. -/
theorem c1_escrow_total_conservation (ops : List EscrowOp) (s s' : State)
    (d : String)
    (hrun : runEscrowOps ops s = (Except.ok (), s'))
    (h0 : s.escrowTotal d = 0) :
    s'.escrowTotal d = escrowedSum d ops - unescrowedSum d ops ∧
    0 ≤ s'.escrowTotal d := by
  have h := runEscrowOps_total ops s s' d hrun
  constructor
  · rw [h.1, h0]
    ring
  · apply h.2
    omega

/-! Concrete fixtures used to instantiate the theorems. -/

/-- A keeper with no blocked addresses and every coin send-enabled. -/
def keeper0 : Keeper :=
  { blockedAddrs := fun _ => false, coinSendEnabled := fun _ => true }

/-- Initial balances: alice holds ten native and ten voucher units. -/
def startBalances : Addr → String → Int :=
  fun a d =>
    if a = "alice" ∧ d = "uatom" then 10
    else if a = "alice" ∧ d = "ibc/transfer/channel-0/uatom" then 10
    else 0

/-- A starting state with both gates enabled and empty escrow. -/
def state0 : State :=
  { params := { sendEnabled := true, receiveEnabled := true },
    balances := startBalances,
    escrowTotal := fun _ => 0,
    denoms := [],
    denomMetadata := [],
    ackWrites := [] }

/-- A native token of five units. -/
def tokenNative : Token :=
  { denom := { base := "uatom", trace := [] }, amount := "5" }

/-- A voucher token of five units carrying the hop of port `transfer`,
channel `channel-0`. -/
def tokenVoucher : Token :=
  { denom := { base := "uatom",
               trace := [{ portId := "transfer", channelId := "channel-0" }] },
    amount := "5" }

/-- An escrow of five followed by an unescrow of three, both in uatom on
the `(transfer, channel-0)` escrow address. -/
def escrowOps0 : List EscrowOp :=
  [EscrowOp.escrowOp "alice" (getEscrowAddress "transfer" "channel-0")
     { denom := "uatom", amount := 5 },
   EscrowOp.unescrowOp (getEscrowAddress "transfer" "channel-0") "bob"
     { denom := "uatom", amount := 3 }]

/-- Witness for C1: the concrete escrow-then-unescrow sequence succeeds
and leaves the uatom escrow total at the escrowed-minus-unescrowed sum,
non-negative. -/
theorem c1_escrow_total_conservation_witness :
    (runEscrowOps escrowOps0 state0).2.escrowTotal "uatom" =
      escrowedSum "uatom" escrowOps0 - unescrowedSum "uatom" escrowOps0 ∧
    0 ≤ (runEscrowOps escrowOps0 state0).2.escrowTotal "uatom" :=
  c1_escrow_total_conservation escrowOps0 state0
    (runEscrowOps escrowOps0 state0).2 "uatom" rfl rfl

/-- C4: EscrowCoin returns without error exactly when the funds move
succeeds, in that case adding the coin's amount to the escrow total; a
failed funds move propagates its error unchanged with the state (hence
the escrow total) untouched.  UnescrowCoin subtracts the coin's amount
from the escrow total on success, and a failed funds move leaves the
state untouched and returns the distinctly wrapped unescrow error. -/
theorem c4_escrow_unescrow_contract (sender escrowAddress receiver : Addr)
    (coin : Coin) (s : State) :
    ((escrowCoin sender escrowAddress coin s).1 =
      (sendCoins sender escrowAddress coin s).1) ∧
    (∀ s', escrowCoin sender escrowAddress coin s = (Except.ok (), s') →
      s'.escrowTotal coin.denom = s.escrowTotal coin.denom + coin.amount) ∧
    (∀ e s', sendCoins sender escrowAddress coin s = (Except.error e, s') →
      escrowCoin sender escrowAddress coin s = (Except.error e, s)) ∧
    (∀ s', unescrowCoin escrowAddress receiver coin s = (Except.ok (), s') →
      s'.escrowTotal coin.denom = s.escrowTotal coin.denom - coin.amount) ∧
    (∀ e s', sendCoins escrowAddress receiver coin s = (Except.error e, s') →
      unescrowCoin escrowAddress receiver coin s =
        (Except.error (Err.wrap unescrowFailMsg e), s)) := by
  refine ⟨?_, ?_, ?_, ?_, ?_⟩
  · unfold escrowCoin
    rcases hse : sendCoins sender escrowAddress coin s with ⟨r, s1⟩
    cases r <;> rfl
  · intro s' h
    have := escrowCoin_ok_total sender escrowAddress coin s s' h coin.denom
    simp only [if_pos rfl] at this
    exact this.1
  · intro e s' h
    have hs : s' = s := sendCoins_error_state sender escrowAddress coin s e s' h
    unfold escrowCoin
    rw [h, hs]
  · intro s' h
    have := unescrowCoin_ok_total escrowAddress receiver coin s s' h coin.denom
    simp only [if_pos rfl] at this
    exact this.1
  · intro e s' h
    have hs : s' = s := sendCoins_error_state escrowAddress receiver coin s e s' h
    unfold unescrowCoin
    rw [h, hs]

/-- Witness for C4: a concrete successful escrow adds five to the uatom
escrow total, and a concrete unescrow against an empty escrow account
fails with the wrapped unescrow error and an untouched state. -/
theorem c4_escrow_unescrow_contract_witness :
    ((escrowCoin "alice" (getEscrowAddress "transfer" "channel-0")
        { denom := "uatom", amount := 5 } state0).2.escrowTotal "uatom" =
      state0.escrowTotal "uatom" + 5) ∧
    (unescrowCoin (getEscrowAddress "transfer" "channel-0") "bob"
        { denom := "uatom", amount := 5 } state0 =
      (Except.error (Err.wrap unescrowFailMsg
        (Err.insufficientFunds (getEscrowAddress "transfer" "channel-0") "uatom")), state0)) :=
  ⟨(c4_escrow_unescrow_contract "alice" (getEscrowAddress "transfer" "channel-0")
      "bob" { denom := "uatom", amount := 5 } state0).2.1
      (escrowCoin "alice" (getEscrowAddress "transfer" "channel-0")
        { denom := "uatom", amount := 5 } state0).2 rfl,
   (c4_escrow_unescrow_contract "alice" (getEscrowAddress "transfer" "channel-0")
      "bob" { denom := "uatom", amount := 5 } state0).2.2.2.2
      (Err.insufficientFunds (getEscrowAddress "transfer" "channel-0") "uatom")
      state0 rfl⟩

/-- Pointwise balance effect of a successful sendCoins: the destination
gains and the source loses the coin's amount. -/
theorem sendCoins_ok_balances (fromA toA : Addr) (c : Coin) (s s1 : State)
    (h : sendCoins fromA toA c s = (Except.ok (), s1)) (x : Addr) (d : String) :
    s1.balances x d = s.balances x d
      + (if x = toA ∧ d = c.denom then c.amount else 0)
      - (if x = fromA ∧ d = c.denom then c.amount else 0) := by
  unfold sendCoins at h
  repeat' split at h
  · simp at h
  · simp only [Prod.mk.injEq] at h
    rw [← h.2]
    split_ifs <;> simp_all
  · simp at h
  · simp only [Prod.mk.injEq] at h
    rw [← h.2]
    simp only [setBal]
    split_ifs <;> simp_all

/-- Pointwise balance effect of a successful mintCoins: the module
account gains the coin's amount. -/
theorem mintCoins_ok_balances (c : Coin) (s s1 : State)
    (h : mintCoins c s = (Except.ok (), s1)) (x : Addr) (d : String) :
    s1.balances x d = s.balances x d
      + (if x = moduleAddr ∧ d = c.denom then c.amount else 0) := by
  unfold mintCoins at h
  split at h
  · simp at h
  · simp only [Prod.mk.injEq] at h
    rw [← h.2]
    simp only [setBal]
    split_ifs <;> simp_all

/-- Pointwise balance effect of a successful burnCoins: the module
account loses the coin's amount. -/
theorem burnCoins_ok_balances (c : Coin) (s s1 : State)
    (h : burnCoins c s = (Except.ok (), s1)) (x : Addr) (d : String) :
    s1.balances x d = s.balances x d
      - (if x = moduleAddr ∧ d = c.denom then c.amount else 0) := by
  unfold burnCoins at h
  repeat' split at h
  · simp at h
  · simp only [Prod.mk.injEq] at h
    rw [← h.2]
    split_ifs <;> simp_all
  · simp at h
  · simp only [Prod.mk.injEq] at h
    rw [← h.2]
    simp only [setBal]
    split_ifs <;> simp_all

/-- C2: in the per-token send step, a token whose denom carries the
outgoing `(port, channel)` prefix is moved from the sender to the module
account and then burned, with the escrow totals untouched; otherwise the
token's coin is escrowed via EscrowCoin at the escrow address derived
from the outgoing port and channel. -/
theorem c2_send_direction_test (k : Keeper) (sourcePort sourceChannel : String)
    (sender : Addr) (token : Token) (coin : Coin) (s : State)
    (hcoin : Token.toCoin token = Except.ok coin)
    (henabled : k.coinSendEnabled coin.denom = true) :
    ( Denom.HasPrefix token.denom sourcePort sourceChannel = true →
      ∀ s', sendOneToken k sourcePort sourceChannel sender token s = (Except.ok (), s') →
        (∃ s1, sendCoins sender moduleAddr coin s = (Except.ok (), s1) ∧
               burnCoins coin s1 = (Except.ok (), s')) ∧
        s'.escrowTotal = s.escrowTotal) ∧
    ( Denom.HasPrefix token.denom sourcePort sourceChannel = false →
      sendOneToken k sourcePort sourceChannel sender token s =
        escrowCoin sender (getEscrowAddress sourcePort sourceChannel) coin s) := by
  constructor
  · intro hpre s' h
    unfold sendOneToken at h
    rw [hcoin] at h
    dsimp only at h
    rw [henabled] at h
    simp only [Bool.true_eq_false, if_false] at h
    rw [hpre] at h
    simp only [if_true] at h
    rcases hsc : sendCoins sender moduleAddr coin s with ⟨r1, s1⟩
    rw [hsc] at h
    cases r1 with
    | error e => simp at h
    | ok u =>
      cases u
      dsimp only at h
      rcases hb : burnCoins coin s1 with ⟨r2, s2⟩
      rw [hb] at h
      cases r2 with
      | error e => simp at h
      | ok u2 =>
        cases u2
        simp only [Prod.mk.injEq] at h
        constructor
        · exact ⟨s1, rfl, by rw [hb, h.2]⟩
        · rw [← h.2]
          have h1 : s1.escrowTotal = s.escrowTotal := by
            have := sendCoins_escrowTotal sender moduleAddr coin s
            rw [hsc] at this
            exact this
          have h2 : s2.escrowTotal = s1.escrowTotal := by
            have := burnCoins_escrowTotal coin s1
            rw [hb] at this
            exact this
          rw [h2, h1]
  · intro hpre
    unfold sendOneToken
    rw [hcoin]
    dsimp only
    rw [henabled]
    simp only [Bool.true_eq_false, if_false]
    rw [hpre]
    simp only [Bool.false_eq_true, if_false]

/-- Witness for C2: the concrete voucher token (prefixed by the outgoing
port and channel) is moved to the module account and burned with the
escrow totals untouched, and the concrete native token's step is exactly
an EscrowCoin at the derived escrow address. -/
theorem c2_send_direction_test_witness :
    ((∃ s1, sendCoins "alice" moduleAddr
          { denom := "ibc/transfer/channel-0/uatom", amount := 5 } state0 = (Except.ok (), s1) ∧
        burnCoins { denom := "ibc/transfer/channel-0/uatom", amount := 5 } s1 =
          (Except.ok (), (sendOneToken keeper0 "transfer" "channel-0" "alice" tokenVoucher state0).2)) ∧
      (sendOneToken keeper0 "transfer" "channel-0" "alice" tokenVoucher state0).2.escrowTotal =
        state0.escrowTotal) ∧
    (sendOneToken keeper0 "transfer" "channel-0" "alice" tokenNative state0 =
      escrowCoin "alice" (getEscrowAddress "transfer" "channel-0")
        { denom := "uatom", amount := 5 } state0) :=
  ⟨(c2_send_direction_test keeper0 "transfer" "channel-0" "alice" tokenVoucher
      { denom := "ibc/transfer/channel-0/uatom", amount := 5 } state0 (by rfl) rfl).1 rfl
      (sendOneToken keeper0 "transfer" "channel-0" "alice" tokenVoucher state0).2 (by rfl),
   (c2_send_direction_test keeper0 "transfer" "channel-0" "alice" tokenNative
      { denom := "uatom", amount := 5 } state0 (by rfl) rfl).2 rfl⟩

/-- sendCoins never touches the metadata registry. -/
theorem sendCoins_denomMetadata (fromA toA : Addr) (c : Coin) (s : State) :
    ((sendCoins fromA toA c s).2).denomMetadata = s.denomMetadata := by
  unfold sendCoins
  repeat' split
  all_goals rfl

/-- mintCoins never touches the denom registry. -/
theorem mintCoins_denoms (c : Coin) (s : State) :
    ((mintCoins c s).2).denoms = s.denoms := by
  unfold mintCoins
  split
  all_goals rfl

/-- mintCoins never touches the metadata registry. -/
theorem mintCoins_denomMetadata (c : Coin) (s : State) :
    ((mintCoins c s).2).denomMetadata = s.denomMetadata := by
  unfold mintCoins
  split
  all_goals rfl

/-- burnCoins never touches the acknowledgement-write log. -/
theorem burnCoins_ackWrites (c : Coin) (s : State) :
    ((burnCoins c s).2).ackWrites = s.ackWrites := by
  unfold burnCoins
  repeat' split
  all_goals rfl

/-- escrowCoin never touches the acknowledgement-write log. -/
theorem escrowCoin_ackWrites (a b : Addr) (c : Coin) (s : State) :
    ((escrowCoin a b c s).2).ackWrites = s.ackWrites := by
  unfold escrowCoin
  rcases hsc : sendCoins a b c s with ⟨r, s1⟩
  have hw := sendCoins_ackWrites a b c s
  rw [hsc] at hw
  cases r
  · exact hw
  · exact hw

/-- Combined ledger effect of a successful mint followed by a successful
module-to-receiver send: the receiver gains the voucher amount, the
module account nets to zero, and escrow totals and both registries are
untouched. -/
theorem mint_send_effects (receiver : Addr) (voucher : Coin) (t t3 t4 : State)
    (hm : mintCoins voucher t = (Except.ok (), t3))
    (hs : sendCoins moduleAddr receiver voucher t3 = (Except.ok (), t4))
    (hrecv : receiver ≠ moduleAddr) :
    t4.escrowTotal = t.escrowTotal ∧
    t4.denoms = t.denoms ∧
    t4.denomMetadata = t.denomMetadata ∧
    t4.balances receiver voucher.denom = t.balances receiver voucher.denom + voucher.amount ∧
    t4.balances moduleAddr voucher.denom = t.balances moduleAddr voucher.denom := by
  have het3 : t3.escrowTotal = t.escrowTotal := by
    have := mintCoins_escrowTotal voucher t
    rw [hm] at this
    exact this
  have het4 : t4.escrowTotal = t3.escrowTotal := by
    have := sendCoins_escrowTotal moduleAddr receiver voucher t3
    rw [hs] at this
    exact this
  have hdn3 : t3.denoms = t.denoms := by
    have := mintCoins_denoms voucher t
    rw [hm] at this
    exact this
  have hdn4 : t4.denoms = t3.denoms := by
    have := sendCoins_denoms moduleAddr receiver voucher t3
    rw [hs] at this
    exact this
  have hmd3 : t3.denomMetadata = t.denomMetadata := by
    have := mintCoins_denomMetadata voucher t
    rw [hm] at this
    exact this
  have hmd4 : t4.denomMetadata = t3.denomMetadata := by
    have := sendCoins_denomMetadata moduleAddr receiver voucher t3
    rw [hs] at this
    exact this
  have hb3 := mintCoins_ok_balances voucher t t3 hm
  have hb4 := sendCoins_ok_balances moduleAddr receiver voucher t3 t4 hs
  refine ⟨by rw [het4, het3], by rw [hdn4, hdn3], by rw [hmd4, hmd3], ?_, ?_⟩
  · have h1 := hb4 receiver voucher.denom
    have h2 := hb3 receiver voucher.denom
    have hfalse : ¬(receiver = moduleAddr ∧ voucher.denom = voucher.denom) := by
      intro hcontra
      exact hrecv hcontra.1
    rw [if_neg hfalse] at h1 h2
    rw [if_pos ⟨rfl, rfl⟩] at h1
    omega
  · have h1 := hb4 moduleAddr voucher.denom
    have h2 := hb3 moduleAddr voucher.denom
    have hfalse : ¬(moduleAddr = receiver ∧ voucher.denom = voucher.denom) := by
      intro hcontra
      exact hrecv hcontra.1.symm
    rw [if_neg hfalse] at h1
    rw [if_pos ⟨rfl, rfl⟩] at h1 h2
    omega

/-- C3: in the per-token receive step, a token prefixed by the packet's
source port and channel has its leading hop dropped and the resulting
coin unescrowed from the escrow address of the destination port and
channel to the receiver; an unprefixed token has the destination hop
prepended, the resulting denom and its metadata registered when unseen,
and the voucher minted and sent from the module account to the
receiver, with the escrow totals untouched. -/
theorem c3_recv_direction_test (receiver : Addr)
    (sourcePort sourceChannel destPort destChannel : String) (token : Token)
    (a : Int) (s : State)
    (hparse : parseIntString token.amount = some a)
    (hrecv : receiver ≠ moduleAddr) :
    ( Denom.HasPrefix token.denom sourcePort sourceChannel = true →
      ∀ c s', recvOneToken receiver sourcePort sourceChannel destPort destChannel token s =
          (Except.ok c, s') →
        c = { denom := Denom.ibcDenom { base := token.denom.base, trace := token.denom.trace.tail },
              amount := a } ∧
        unescrowCoin (getEscrowAddress destPort destChannel) receiver c s = (Except.ok (), s')) ∧
    ( Denom.HasPrefix token.denom sourcePort sourceChannel = false →
      ∀ c s', recvOneToken receiver sourcePort sourceChannel destPort destChannel token s =
          (Except.ok c, s') →
        c = { denom := Denom.ibcDenom
                (Denom.mk token.denom.base (Hop.mk destPort destChannel :: token.denom.trace)),
              amount := a } ∧
        s'.denoms = (if Denom.mk token.denom.base (Hop.mk destPort destChannel :: token.denom.trace) ∈ s.denoms
          then s.denoms
          else Denom.mk token.denom.base (Hop.mk destPort destChannel :: token.denom.trace) :: s.denoms) ∧
        s'.denomMetadata = (if Denom.ibcDenom
              (Denom.mk token.denom.base (Hop.mk destPort destChannel :: token.denom.trace)) ∈ s.denomMetadata
          then s.denomMetadata
          else Denom.ibcDenom
              (Denom.mk token.denom.base (Hop.mk destPort destChannel :: token.denom.trace)) :: s.denomMetadata) ∧
        s'.escrowTotal = s.escrowTotal ∧
        s'.balances receiver c.denom = s.balances receiver c.denom + a ∧
        s'.balances moduleAddr c.denom = s.balances moduleAddr c.denom) := by
  constructor
  · intro hpre c s' h
    unfold recvOneToken at h
    rw [hparse] at h
    dsimp only at h
    rw [hpre] at h
    simp only [if_true] at h
    by_cases ha : a < 0
    · rw [if_pos ha] at h
      simp at h
    · rw [if_neg ha] at h
      rcases hu : unescrowCoin (getEscrowAddress destPort destChannel) receiver
          { denom := Denom.ibcDenom { base := token.denom.base, trace := token.denom.trace.tail },
            amount := a } s with ⟨r1, s1⟩
      rw [hu] at h
      cases r1 with
      | error e => simp at h
      | ok u =>
        cases u
        dsimp only at h
        simp only [Prod.mk.injEq, Except.ok.injEq] at h
        refine ⟨h.1.symm, ?_⟩
        rw [← h.1]
        rw [hu, h.2]
  · intro hpre c s' h
    unfold recvOneToken at h
    rw [hparse] at h
    dsimp only at h
    rw [hpre] at h
    simp only [Bool.false_eq_true, if_false] at h
    set longer : Denom :=
      Denom.mk token.denom.base (Hop.mk destPort destChannel :: token.denom.trace) with hlonger
    set t1 := (if longer ∈ s.denoms then s else { s with denoms := longer :: s.denoms }) with ht1
    set t2 := (if Denom.ibcDenom longer ∈ t1.denomMetadata then t1
               else { t1 with denomMetadata := Denom.ibcDenom longer :: t1.denomMetadata }) with ht2
    by_cases ha : a < 0
    · rw [if_pos ha] at h
      simp at h
    · rw [if_neg ha] at h
      rcases hm : mintCoins { denom := Denom.ibcDenom longer, amount := a } t2 with ⟨r3, s3⟩
      rw [hm] at h
      cases r3 with
      | error e => simp at h
      | ok u =>
        cases u
        dsimp only at h
        rcases hsnd : sendCoins moduleAddr receiver
            { denom := Denom.ibcDenom longer, amount := a } s3 with ⟨r4, s4⟩
        rw [hsnd] at h
        cases r4 with
        | error e => simp at h
        | ok u2 =>
          cases u2
          dsimp only at h
          simp only [Prod.mk.injEq, Except.ok.injEq] at h
          have heff := mint_send_effects receiver
            { denom := Denom.ibcDenom longer, amount := a } t2 s3 s4 hm hsnd hrecv
          have ht1denoms : t1.denoms =
              (if longer ∈ s.denoms then s.denoms else longer :: s.denoms) := by
            rw [ht1]
            split <;> rfl
          have ht1md : t1.denomMetadata = s.denomMetadata := by
            rw [ht1]
            split <;> rfl
          have ht1bal : t1.balances = s.balances := by
            rw [ht1]
            split <;> rfl
          have ht1esc : t1.escrowTotal = s.escrowTotal := by
            rw [ht1]
            split <;> rfl
          have ht2denoms : t2.denoms = t1.denoms := by
            rw [ht2]
            split <;> rfl
          have ht2md : t2.denomMetadata =
              (if Denom.ibcDenom longer ∈ t1.denomMetadata then t1.denomMetadata
               else Denom.ibcDenom longer :: t1.denomMetadata) := by
            rw [ht2]
            split <;> rfl
          have ht2bal : t2.balances = t1.balances := by
            rw [ht2]
            split <;> rfl
          have ht2esc : t2.escrowTotal = t1.escrowTotal := by
            rw [ht2]
            split <;> rfl
          refine ⟨h.1.symm, ?_, ?_, ?_, ?_, ?_⟩
          · rw [← h.2, heff.2.1, ht2denoms, ht1denoms]
          · rw [← h.2, heff.2.2.1, ht2md, ht1md]
          · rw [← h.2, heff.1, ht2esc, ht1esc]
          · rw [h.1.symm]
            rw [← h.2, heff.2.2.2.1, ht2bal, ht1bal]
          · rw [h.1.symm]
            rw [← h.2, heff.2.2.2.2, ht2bal, ht1bal]

/-- A state with ten uatom escrowed (balance and total) under the
`(transfer, channel-1)` escrow address. -/
def state1 : State :=
  { params := { sendEnabled := true, receiveEnabled := true },
    balances := fun a d =>
      if a = getEscrowAddress "transfer" "channel-1" ∧ d = "uatom" then 10 else 0,
    escrowTotal := fun d => if d = "uatom" then 10 else 0,
    denoms := [],
    denomMetadata := [],
    ackWrites := [] }

/-- Witness for C3: receiving the concrete prefixed voucher unescrows
uatom from the `(transfer, channel-1)` escrow address to bob, and
receiving the concrete unprefixed native token mints and credits bob
with the prepended-trace voucher denomination. -/
theorem c3_recv_direction_test_witness :
    (unescrowCoin (getEscrowAddress "transfer" "channel-1") "bob"
        { denom := "uatom", amount := 5 } state1 =
      (Except.ok (),
        (recvOneToken "bob" "transfer" "channel-0" "transfer" "channel-1" tokenVoucher state1).2)) ∧
    ((recvOneToken "bob" "transfer" "channel-0" "transfer" "channel-2" tokenNative state0).2.balances
        "bob" (Denom.ibcDenom (Denom.mk "uatom" [Hop.mk "transfer" "channel-2"])) =
      state0.balances "bob" (Denom.ibcDenom (Denom.mk "uatom" [Hop.mk "transfer" "channel-2"])) + 5) := by
  constructor
  · exact ((c3_recv_direction_test "bob" "transfer" "channel-0" "transfer" "channel-1"
      tokenVoucher 5 state1 (by rfl) (by decide)).1 rfl { denom := "uatom", amount := 5 }
      (recvOneToken "bob" "transfer" "channel-0" "transfer" "channel-1" tokenVoucher state1).2
      (by rfl)).2
  · have h2 := (c3_recv_direction_test "bob" "transfer" "channel-0" "transfer" "channel-2"
      tokenNative 5 state0 (by rfl) (by decide)).2 rfl
      { denom := Denom.ibcDenom (Denom.mk "uatom" [Hop.mk "transfer" "channel-2"]), amount := 5 }
      (recvOneToken "bob" "transfer" "channel-0" "transfer" "channel-2" tokenNative state0).2
      (by rfl)
    exact h2.2.2.2.2.1

/-- C5: a success acknowledgement is a no-op; an error acknowledgement
and a timeout both refund via refundPacketTokens; and the per-token
refund mirrors the send path's direction test — a prefixed token is
minted back to the sender from the module account, an unprefixed one is
unescrowed back to the sender from the escrow address of the packet's
source port and channel. -/
theorem c5_ack_timeout_refund (k : Keeper) (sp sc : String)
    (data : FungibleTokenPacketDataV2) (resultData : List Nat) (errMsg : String)
    (sender : Addr) (token : Token) (coin : Coin) (s : State)
    (hcoin : Token.toCoin token = Except.ok coin)
    (hsender : sender ≠ moduleAddr) :
    (onAcknowledgementPacket k sp sc data (Acknowledgement.result resultData) s =
      (Except.ok (), s)) ∧
    (onAcknowledgementPacket k sp sc data (Acknowledgement.ackError errMsg) s =
      refundPacketTokens k sp sc data s) ∧
    (onTimeoutPacket k sp sc data s = refundPacketTokens k sp sc data s) ∧
    ( Denom.HasPrefix token.denom sp sc = true →
      ∀ s', refundOneToken sp sc sender token s = (Except.ok (), s') →
        s'.balances sender coin.denom = s.balances sender coin.denom + coin.amount ∧
        s'.escrowTotal = s.escrowTotal) ∧
    ( Denom.HasPrefix token.denom sp sc = false →
      refundOneToken sp sc sender token s =
        unescrowCoin (getEscrowAddress sp sc) sender coin s) := by
  refine ⟨rfl, rfl, rfl, ?_, ?_⟩
  · intro hpre s' h
    unfold refundOneToken at h
    rw [hcoin] at h
    dsimp only at h
    rw [hpre] at h
    simp only [if_true] at h
    rcases hm : mintCoins coin s with ⟨r1, s1⟩
    rw [hm] at h
    cases r1 with
    | error e => simp at h
    | ok u =>
      cases u
      dsimp only at h
      rcases hsnd : sendCoins moduleAddr sender coin s1 with ⟨r2, s2⟩
      rw [hsnd] at h
      cases r2 with
      | error e => simp at h
      | ok u2 =>
        cases u2
        dsimp only at h
        simp only [Prod.mk.injEq] at h
        have heff := mint_send_effects sender coin s s1 s2 hm hsnd hsender
        rw [← h.2]
        exact ⟨heff.2.2.2.1, heff.1⟩
  · intro hpre
    unfold refundOneToken
    rw [hcoin]
    dsimp only
    rw [hpre]
    simp only [Bool.false_eq_true, if_false]

/-- The concrete packet data used by the acknowledgement witnesses. -/
def data0 : FungibleTokenPacketDataV2 :=
  { tokens := [tokenNative], sender := "alice", receiver := "bob",
    memo := "", forwarding := { destinationMemo := "", hops := [] } }

/-- Witness for C5: on the concrete packet a success acknowledgement
changes nothing, and refunding the unprefixed native token is exactly an
unescrow back to alice from the `(transfer, channel-0)` escrow
address. -/
theorem c5_ack_timeout_refund_witness :
    (onAcknowledgementPacket keeper0 "transfer" "channel-0" data0
        (Acknowledgement.result [1]) state0 = (Except.ok (), state0)) ∧
    (refundOneToken "transfer" "channel-0" "alice" tokenNative state0 =
      unescrowCoin (getEscrowAddress "transfer" "channel-0") "alice"
        { denom := "uatom", amount := 5 } state0) := by
  have H := c5_ack_timeout_refund keeper0 "transfer" "channel-0" data0 [1] "err"
    "alice" tokenNative { denom := "uatom", amount := 5 } state0 (by rfl) (by decide)
  exact ⟨H.1, H.2.2.2.2 rfl⟩

/-- The per-token revert never touches the acknowledgement-write log. -/
theorem revertOneToken_ackWrites (p : Packet) (token : Token) (s : State) :
    ((revertOneToken p token s).2).ackWrites = s.ackWrites := by
  unfold revertOneToken
  cases htc : Token.toCoin token with
  | error e => rfl
  | ok coin =>
    dsimp only
    split
    · exact burnCoins_ackWrites coin s
    · exact escrowCoin_ackWrites moduleAddr
        (getEscrowAddress p.destinationPort p.destinationChannel) coin s

/-- The revert loop never touches the acknowledgement-write log. -/
theorem revertLoop_ackWrites (p : Packet) (ts : List Token) :
    ∀ s : State, ((revertLoop p ts s).2).ackWrites = s.ackWrites := by
  induction ts with
  | nil => intro s; rfl
  | cons t rest ih =>
    intro s
    unfold revertLoop
    rcases hstep : revertOneToken p t s with ⟨r, s1⟩
    have hw := revertOneToken_ackWrites p t s
    rw [hstep] at hw
    cases r with
    | error e => exact hw
    | ok u =>
      dsimp only
      rw [ih s1]
      exact hw

/-- C6: a forwarded packet acknowledged with success gets a trivial
success acknowledgement written for the original inbound packet with no
other state change; on an error acknowledgement (and on timeout) the
local receive-path effects are reverted first and only then is the
synthetic error (or timeout) acknowledgement written — a failed revert
propagates its error and no acknowledgement is written. -/
theorem c6_forwarded_ack_control (k : Keeper) (packet forwardedPacket : Packet)
    (data : FungibleTokenPacketDataV2) (resultData : List Nat) (errMsg : String)
    (s : State) :
    (handleForwardedPacketAcknowledgement k packet forwardedPacket data
        (Acknowledgement.result resultData) s =
      (Except.ok (), { s with ackWrites :=
        s.ackWrites ++ [(forwardedPacket, Acknowledgement.result [1])] })) ∧
    (∀ e s1, revertForwardedPacket forwardedPacket data s = (Except.error e, s1) →
      handleForwardedPacketAcknowledgement k packet forwardedPacket data
          (Acknowledgement.ackError errMsg) s = (Except.error e, s1) ∧
      s1.ackWrites = s.ackWrites) ∧
    (∀ s1, revertForwardedPacket forwardedPacket data s = (Except.ok (), s1) →
      handleForwardedPacketAcknowledgement k packet forwardedPacket data
          (Acknowledgement.ackError errMsg) s =
        (Except.ok (), { s1 with ackWrites := s1.ackWrites ++
          [(forwardedPacket,
            newForwardErrorAcknowledgement packet (Acknowledgement.ackError errMsg))] })) ∧
    (∀ e s1, revertForwardedPacket forwardedPacket data s = (Except.error e, s1) →
      handleForwardedPacketTimeout k packet forwardedPacket data s = (Except.error e, s1) ∧
      s1.ackWrites = s.ackWrites) ∧
    (∀ s1, revertForwardedPacket forwardedPacket data s = (Except.ok (), s1) →
      handleForwardedPacketTimeout k packet forwardedPacket data s =
        (Except.ok (), { s1 with ackWrites := s1.ackWrites ++
          [(forwardedPacket, newForwardTimeoutAcknowledgement packet)] })) := by
  refine ⟨rfl, ?_, ?_, ?_, ?_⟩
  · intro e s1 hrev
    have hw := revertLoop_ackWrites forwardedPacket data.tokens s
    rw [show revertLoop forwardedPacket data.tokens s =
          revertForwardedPacket forwardedPacket data s from rfl, hrev] at hw
    refine ⟨?_, hw⟩
    unfold handleForwardedPacketAcknowledgement
    rw [hrev]
  · intro s1 hrev
    unfold handleForwardedPacketAcknowledgement
    rw [hrev]
    rfl
  · intro e s1 hrev
    have hw := revertLoop_ackWrites forwardedPacket data.tokens s
    rw [show revertLoop forwardedPacket data.tokens s =
          revertForwardedPacket forwardedPacket data s from rfl, hrev] at hw
    refine ⟨?_, hw⟩
    unfold handleForwardedPacketTimeout
    rw [hrev]
  · intro s1 hrev
    unfold handleForwardedPacketTimeout
    rw [hrev]
    rfl

/-- The forwarded packet of the C6 witness: it arrived over
`(transfer, channel-1)` on the destination side. -/
def fwdPacket0 : Packet :=
  { sequence := 1, sourcePort := "transfer", sourceChannel := "channel-9",
    destinationPort := "transfer", destinationChannel := "channel-1" }

/-- The original inbound packet of the C6 witness. -/
def origPacket0 : Packet :=
  { sequence := 7, sourcePort := "transfer", sourceChannel := "channel-2",
    destinationPort := "transfer", destinationChannel := "channel-3" }

/-- Witness for C6: on the concrete packets a success acknowledgement
only appends the trivial success acknowledgement, and with an error
acknowledgement the failing revert (the module account cannot re-escrow
the unprefixed token) propagates its error with no acknowledgement
written. -/
theorem c6_forwarded_ack_control_witness :
    (handleForwardedPacketAcknowledgement keeper0 origPacket0 fwdPacket0 data0
        (Acknowledgement.result [1]) state0 =
      (Except.ok (), { state0 with ackWrites :=
        state0.ackWrites ++ [(fwdPacket0, Acknowledgement.result [1])] })) ∧
    (handleForwardedPacketAcknowledgement keeper0 origPacket0 fwdPacket0 data0
        (Acknowledgement.ackError "upstream failure") state0 =
      (Except.error (Err.insufficientFunds moduleAddr "uatom"), state0) ∧
     state0.ackWrites = state0.ackWrites) := by
  have H := c6_forwarded_ack_control keeper0 origPacket0 fwdPacket0 data0 [1]
    "upstream failure" state0
  exact ⟨H.1, H.2.1 (Err.insufficientFunds moduleAddr "uatom") state0 (by rfl)⟩

/-- C7: with the send gate off SendTransfer fails with the disabled
error before touching any state; with the gate on and a blocked sender
it fails with the unauthorized error, untouched likewise.  OnRecvPacket,
on structurally valid data, mirrors this for the receive gate and the
resolved receiver. -/
theorem c7_gates_and_blocked (k : Keeper) (sp sc dp dc : String)
    (tokens : List Token) (sender : Addr) (data : FungibleTokenPacketDataV2)
    (s : State) :
    (s.params.sendEnabled = false →
      sendTransfer k sp sc tokens sender s = (Except.error Err.sendDisabled, s)) ∧
    (s.params.sendEnabled = true → k.blockedAddrs sender = true →
      sendTransfer k sp sc tokens sender s = (Except.error (Err.unauthorized sender), s)) ∧
    ( FungibleTokenPacketDataV2.validateBasic data = Except.ok () →
      s.params.receiveEnabled = false →
      onRecvPacket k data sp sc dp dc s = (Except.error Err.receiveDisabled, s)) ∧
    (∀ receiver, FungibleTokenPacketDataV2.validateBasic data = Except.ok () →
      s.params.receiveEnabled = true →
      getReceiverFromPacketData data = Except.ok receiver →
      k.blockedAddrs receiver = true →
      onRecvPacket k data sp sc dp dc s = (Except.error (Err.unauthorized receiver), s)) := by
  refine ⟨?_, ?_, ?_, ?_⟩
  · intro h
    unfold sendTransfer
    rw [h]
    rfl
  · intro h1 h2
    unfold sendTransfer
    rw [h1, h2]
    rfl
  · intro hval hoff
    unfold onRecvPacket
    rw [hval]
    dsimp only
    rw [hoff]
    rfl
  · intro receiver hval hon hrecv hblocked
    unfold onRecvPacket
    rw [hval]
    dsimp only
    rw [hon]
    simp only [Bool.true_eq_false, if_false]
    rw [hrecv]
    dsimp only
    rw [hblocked]
    rfl

/-- A state with both feature gates off. -/
def stateOff : State :=
  { state0 with params := { sendEnabled := false, receiveEnabled := false } }

/-- A keeper blocking only the address mallory. -/
def keeperBlocked : Keeper :=
  { blockedAddrs := fun a => a == "mallory", coinSendEnabled := fun _ => true }

/-- The C7 packet data addressed to the blocked receiver mallory. -/
def dataMallory : FungibleTokenPacketDataV2 :=
  { data0 with receiver := "mallory" }

/-- Witness for C7: on concrete inputs the four gate outcomes are
exactly the disabled and unauthorized errors with the state returned
untouched. -/
theorem c7_gates_and_blocked_witness :
    (sendTransfer keeper0 "transfer" "channel-0" [tokenNative] "alice" stateOff =
      (Except.error Err.sendDisabled, stateOff)) ∧
    (sendTransfer keeperBlocked "transfer" "channel-0" [tokenNative] "mallory" state0 =
      (Except.error (Err.unauthorized "mallory"), state0)) ∧
    (onRecvPacket keeper0 data0 "transfer" "channel-0" "transfer" "channel-1" stateOff =
      (Except.error Err.receiveDisabled, stateOff)) ∧
    (onRecvPacket keeperBlocked dataMallory "transfer" "channel-0" "transfer" "channel-1" state0 =
      (Except.error (Err.unauthorized "mallory"), state0)) :=
  ⟨(c7_gates_and_blocked keeper0 "transfer" "channel-0" "transfer" "channel-1"
      [tokenNative] "alice" data0 stateOff).1 rfl,
   (c7_gates_and_blocked keeperBlocked "transfer" "channel-0" "transfer" "channel-1"
      [tokenNative] "mallory" data0 state0).2.1 rfl (by rfl),
   (c7_gates_and_blocked keeper0 "transfer" "channel-0" "transfer" "channel-1"
      [tokenNative] "alice" data0 stateOff).2.2.1 (by rfl) rfl,
   (c7_gates_and_blocked keeperBlocked "transfer" "channel-0" "transfer" "channel-1"
      [tokenNative] "mallory" dataMallory state0).2.2.2 "mallory" (by rfl) rfl (by rfl) (by rfl)⟩

/-- C8: constructing V1 packet data from a token list whose length is
not exactly one fails with the wrapped invalid-request error and
produces no bytes; in particular every two-token request fails so. -/
theorem c8_v1_single_token_only (sender receiver memo : String) (hops : List Hop) :
    (∀ tokens : List Token, tokens.length ≠ 1 →
      createPacketDataBytesFromVersion V1 sender receiver memo tokens hops =
        Except.error (Err.wrap "cannot transfer multiple coins with ics20-1" Err.invalidRequest)) ∧
    (∀ t1 t2 : Token,
      createPacketDataBytesFromVersion V1 sender receiver memo [t1, t2] hops =
        Except.error (Err.wrap "cannot transfer multiple coins with ics20-1" Err.invalidRequest)) := by
  constructor
  · intro tokens hlen
    unfold createPacketDataBytesFromVersion
    rw [if_pos rfl]
    cases tokens with
    | nil => rfl
    | cons t rest =>
      cases rest with
      | nil => exact absurd rfl hlen
      | cons t2 r2 => rfl
  · intro t1 t2
    unfold createPacketDataBytesFromVersion
    rw [if_pos rfl]

/-- Witness for C8: the concrete two-token V1 request fails with the
wrapped invalid-request error. -/
theorem c8_v1_single_token_only_witness :
    createPacketDataBytesFromVersion V1 "alice" "bob" "" [tokenNative, tokenVoucher] [] =
      Except.error (Err.wrap "cannot transfer multiple coins with ics20-1" Err.invalidRequest) :=
  (c8_v1_single_token_only "alice" "bob" "" []).2 tokenNative tokenVoucher

/-- C9: V2 packet data built with a nonempty hops list carries the given
memo and hops in its forwarding payload with an empty top-level memo;
with an empty hops list the top-level memo is the given memo and the
forwarding payload is empty. -/
theorem c9_v2_forwarding_memo (sender receiver memo : String)
    (tokens : List Token) (hops : List Hop) :
    (hops ≠ [] → ∀ b,
      createPacketDataBytesFromVersion V2 sender receiver memo tokens hops = Except.ok b →
      b = PacketDataBytes.v2 (FungibleTokenPacketDataV2.mk tokens sender receiver ""
            (ForwardingPacketData.mk memo hops))) ∧
    (hops = [] → ∀ b,
      createPacketDataBytesFromVersion V2 sender receiver memo tokens hops = Except.ok b →
      b = PacketDataBytes.v2 (FungibleTokenPacketDataV2.mk tokens sender receiver memo
            (ForwardingPacketData.mk "" []))) := by
  constructor
  · intro hne b hb
    unfold createPacketDataBytesFromVersion at hb
    rw [if_neg (by decide), if_pos rfl] at hb
    dsimp only at hb
    simp only [if_pos hne] at hb
    rcases hv : FungibleTokenPacketDataV2.validateBasic
        (FungibleTokenPacketDataV2.mk tokens sender receiver ""
          (ForwardingPacketData.mk memo hops)) with e1 | u
    · rw [hv] at hb
      simp at hb
    · rw [hv] at hb
      dsimp only at hb
      simp only [Except.ok.injEq] at hb
      exact hb.symm
  · intro hemp b hb
    subst hemp
    unfold createPacketDataBytesFromVersion at hb
    rw [if_neg (by decide), if_pos rfl] at hb
    dsimp only at hb
    simp only [ne_eq, not_true_eq_false, if_false, ite_false] at hb
    rcases hv : FungibleTokenPacketDataV2.validateBasic
        (FungibleTokenPacketDataV2.mk tokens sender receiver memo
          (ForwardingPacketData.mk "" [])) with e1 | u
    · rw [hv] at hb
      simp at hb
    · rw [hv] at hb
      dsimp only at hb
      simp only [Except.ok.injEq] at hb
      exact hb.symm

/-- Witness for C9: the concrete V2 constructions with one forwarding
hop and with no hops produce exactly the relocated-memo and the
plain-memo payloads. -/
theorem c9_v2_forwarding_memo_witness :
    (PacketDataBytes.v2 (FungibleTokenPacketDataV2.mk [tokenNative] "alice" "bob" ""
        (ForwardingPacketData.mk "note" [Hop.mk "transfer" "channel-5"])) =
      PacketDataBytes.v2 (FungibleTokenPacketDataV2.mk [tokenNative] "alice" "bob" ""
        (ForwardingPacketData.mk "note" [Hop.mk "transfer" "channel-5"]))) ∧
    (PacketDataBytes.v2 (FungibleTokenPacketDataV2.mk [tokenNative] "alice" "bob" "note"
        (ForwardingPacketData.mk "" [])) =
      PacketDataBytes.v2 (FungibleTokenPacketDataV2.mk [tokenNative] "alice" "bob" "note"
        (ForwardingPacketData.mk "" []))) :=
  ⟨(c9_v2_forwarding_memo "alice" "bob" "note" [tokenNative]
      [Hop.mk "transfer" "channel-5"]).1 (by decide)
      (PacketDataBytes.v2 (FungibleTokenPacketDataV2.mk [tokenNative] "alice" "bob" ""
        (ForwardingPacketData.mk "note" [Hop.mk "transfer" "channel-5"]))) (by rfl),
   (c9_v2_forwarding_memo "alice" "bob" "note" [tokenNative] []).2 rfl
      (PacketDataBytes.v2 (FungibleTokenPacketDataV2.mk [tokenNative] "alice" "bob" "note"
        (ForwardingPacketData.mk "" []))) (by rfl)⟩

/-- The SendTransfer token loop written without the loop-local append:
each token of the given list is processed exactly once, in order. -/
def processTokensInOrder (k : Keeper) (sp sc : String) (sender : Addr) :
    List Token → State → Except Err Unit × State
  | [], s => (Except.ok (), s)
  | token :: rest, s =>
    match sendOneToken k sp sc sender token s with
    | (Except.error e, s1) => (Except.error e, s1)
    | (Except.ok _, s1) => processTokensInOrder k sp sc sender rest s1

/-- C10: the SendTransfer loop is insensitive to the Go variable being
appended to inside the loop — for every accumulator it processes exactly
the original token list once, in order, with identical outcome and
ledger effects; consequently, past the gates, SendTransfer itself equals
that clean per-token fold. -/
theorem c10_append_copies_never_processed (k : Keeper) (sp sc : String)
    (sender : Addr) (tokens : List Token) (s : State) :
    (∀ acc : List Token, sendTransferLoop k sp sc sender tokens acc s =
      processTokensInOrder k sp sc sender tokens s) ∧
    (s.params.sendEnabled = true → k.blockedAddrs sender = false →
      sendTransfer k sp sc tokens sender s =
        processTokensInOrder k sp sc sender tokens s) := by
  have main : ∀ ts : List Token, ∀ acc : List Token, ∀ s0 : State,
      sendTransferLoop k sp sc sender ts acc s0 =
        processTokensInOrder k sp sc sender ts s0 := by
    intro ts
    induction ts with
    | nil => intro acc s0; rfl
    | cons t rest ih =>
      intro acc s0
      unfold sendTransferLoop processTokensInOrder
      rcases hstep : sendOneToken k sp sc sender t s0 with ⟨r, s1⟩
      cases r with
      | error e => rfl
      | ok u =>
        dsimp only
        exact ih (acc ++ [t]) s1
  constructor
  · intro acc
    exact main tokens acc s
  · intro h1 h2
    unfold sendTransfer
    rw [h1, h2]
    simp only [Bool.true_eq_false, if_false, Bool.false_eq_true]
    exact main tokens tokens s

/-- Witness for C10: on the concrete single-token call with open gates,
SendTransfer coincides with the clean in-order fold. -/
theorem c10_append_copies_never_processed_witness :
    sendTransfer keeper0 "transfer" "channel-0" [tokenNative] "alice" state0 =
      processTokensInOrder keeper0 "transfer" "channel-0" "alice" [tokenNative] state0 :=
  (c10_append_copies_never_processed keeper0 "transfer" "channel-0" "alice"
    [tokenNative] state0).2 rfl rfl

end IBCTransfer
